import Mathlib

/-!
Verification of the Travel Globe renderer (`Snippets4Fun/Travel_Globe/travel_globe.py`).

The Python source computes with IEEE floats; here float expressions are
modelled in exact arithmetic: code that only ever uses field operations,
floor/truncation and comparisons is embedded polymorphically over a
`LinearOrderedField` with a `FloorRing` (instantiated at `ℚ` for evaluation
and at `ℝ` inside the renderer), and code using transcendental functions
(`math.sin`, `math.cos`, `math.sqrt`, `math.asin`, `math.atan2`, float `**`)
is embedded over `ℝ` with the corresponding `Real` functions.

Python-specific numeric primitives are modelled as:
  * `int(x)`   — truncation toward zero: `pytrunc`;
  * `x % m`    — for a positive float modulus: `fmod x m = x - m * ⌊x / m⌋`
    (Python's float `%` takes the sign of the divisor);
  * `a % b` on integers — `Int.emod` (both give a result in `[0, b)` for
    `b > 0`);
  * `numpy` float-to-`uint8` stores — clamping is explicit in the source
    (`np.clip`), the cast truncates, giving `Int.toNat ∘ Int.floor` on the
    clipped non-negative value.

`pygame` and `numpy` library internals that the source calls but does not
define (`smoothscale`-based blurs, the random layers fed into the fractal
noise accumulator, outline/arc rasterisation) enter the embedding as
explicit function parameters bundled in structures (`UpsampleOps`,
`SurfaceOps`); everything written in the repository itself is embedded
directly.
-/

namespace TravelGlobe

/-- Screen/layout constants from the source. -/
def MAP_WIDTH : ℕ := 2048

def MAP_HEIGHT : ℕ := 1024

def GLOBE_RADIUS : ℕ := 280

def GLOBE_CENTER : ℤ × ℤ := (500, 400)

/-- Python `int(x)`: truncation toward zero. -/
def pytrunc (q : ℚ) : ℤ := if 0 ≤ q then ⌊q⌋ else ⌈q⌉

/-- `lonlat_to_mapxy(lon, lat)` from the source:
`x = (lon + 180.0) / 360.0 * MAP_WIDTH`, `y = (90.0 - lat) / 180.0 * MAP_HEIGHT`,
returning `(int(x) % MAP_WIDTH, max(0, min(MAP_HEIGHT - 1, int(y))))`. -/
def lonlat_to_mapxy (lon lat : ℚ) : ℤ × ℤ :=
  (pytrunc ((lon + 180) / 360 * MAP_WIDTH) % (MAP_WIDTH : ℤ),
   max 0 (min ((MAP_HEIGHT : ℤ) - 1) (pytrunc ((90 - lat) / 180 * MAP_HEIGHT))))

theorem pytrunc_of_nonneg {q : ℚ} (h : 0 ≤ q) : pytrunc q = ⌊q⌋ := if_pos h

/-- Claim C10: for every finite longitude and latitude, `lonlat_to_mapxy` is
total and returns `x ∈ [0, MAP_WIDTH)` and `y ∈ [0, MAP_HEIGHT - 1]`. -/
theorem lonlat_to_mapxy_in_range (lon lat : ℚ) :
    0 ≤ (lonlat_to_mapxy lon lat).1 ∧ (lonlat_to_mapxy lon lat).1 < MAP_WIDTH ∧
    0 ≤ (lonlat_to_mapxy lon lat).2 ∧ (lonlat_to_mapxy lon lat).2 ≤ (MAP_HEIGHT : ℤ) - 1 := by
  unfold lonlat_to_mapxy
  refine ⟨Int.emod_nonneg _ (by norm_num [MAP_WIDTH]),
          Int.emod_lt_of_pos _ (by norm_num [MAP_WIDTH]), le_max_left _ _, ?_⟩
  exact max_le (by norm_num [MAP_HEIGHT]) (min_le_left _ _)

/-- Claim C5 (counterexample): the wrap invariant fails for a longitude below
`-180°`, where `int()` truncates toward zero instead of flooring: at
`lon = -180.1`, `k = 1`, the two calls land in different pixel cells. -/
theorem lonlat_to_mapxy_wrap_counterexample :
    lonlat_to_mapxy (-1801/10 + 360 * 1) 0 ≠ lonlat_to_mapxy (-1801/10) 0 := by
  have h1 : (lonlat_to_mapxy (-1801/10 + 360 * 1) 0).1 = 2047 := by
    unfold lonlat_to_mapxy
    rw [pytrunc_of_nonneg (by norm_num [MAP_WIDTH])]
    norm_num [MAP_WIDTH]
  have h2 : (lonlat_to_mapxy (-1801/10) 0).1 = 0 := by
    unfold lonlat_to_mapxy
    rw [pytrunc, if_neg (by norm_num [MAP_WIDTH])]
    have hceil : ⌈((-1801/10 + 180) / 360 * (MAP_WIDTH : ℚ))⌉ = (0 : ℤ) := by
      norm_num [MAP_WIDTH]
    rw [hceil]
    norm_num
  intro h
  rw [h, h2] at h1
  norm_num at h1

/-- Claim C5 (amended): the wrap invariant holds whenever both longitude
arguments are at least `-180°` (so the intermediate map coordinate is
non-negative and truncation agrees with flooring). -/
theorem lonlat_to_mapxy_wrap (lon lat : ℚ) (k : ℤ)
    (h1 : -180 ≤ lon) (h2 : -180 ≤ lon + 360 * k) :
    lonlat_to_mapxy (lon + 360 * k) lat = lonlat_to_mapxy lon lat := by
  unfold lonlat_to_mapxy
  have hx : (0 : ℚ) ≤ (lon + 180) / 360 * MAP_WIDTH := by
    have : (0 : ℚ) ≤ lon + 180 := by linarith
    positivity
  have hx' : (0 : ℚ) ≤ (lon + 360 * k + 180) / 360 * MAP_WIDTH := by
    have : (0 : ℚ) ≤ lon + 360 * k + 180 := by
      have := h2; push_cast at this ⊢; linarith
    positivity
  have hsplit : (lon + 360 * k + 180) / 360 * (MAP_WIDTH : ℚ)
      = (lon + 180) / 360 * (MAP_WIDTH : ℚ) + ((2048 * k : ℤ) : ℚ) := by
    push_cast [MAP_WIDTH]
    ring
  congr 1
  rw [pytrunc_of_nonneg hx', pytrunc_of_nonneg hx, hsplit, Int.floor_add_int]
  show (⌊(lon + 180) / 360 * (MAP_WIDTH : ℚ)⌋ + 2048 * k) % (MAP_WIDTH : ℤ) = _
  norm_num [MAP_WIDTH, Int.add_mul_emod_self_left]

/-- Claim C5 (witness for the amended theorem). -/
theorem lonlat_to_mapxy_wrap_witness :
    lonlat_to_mapxy (10 + 360 * 1) 20 = lonlat_to_mapxy 10 20 :=
  lonlat_to_mapxy_wrap 10 20 1 (by norm_num) (by norm_num)


/-! ## Bilinear texture sampling (`sample_color`, `sample_scalar`) -/

/-- A 2D scalar texture (`numpy` float array indexed `array[x, y]`). -/
structure ScalarGrid (α : Type) where
  width : ℕ
  height : ℕ
  data : ℕ → ℕ → α

/-- A 2D RGB texture (`numpy` float array of shape `(w, h, 3)`). -/
structure ColorGrid (α : Type) where
  width : ℕ
  height : ℕ
  data : ℕ → ℕ → α × α × α

/-- Componentwise scaling of an RGB triple (numpy broadcast `s * c`). -/
def v3smul {α : Type} [Mul α] (s : α) (v : α × α × α) : α × α × α :=
  (s * v.1, s * v.2.1, s * v.2.2)

/-- Componentwise sum of RGB triples (numpy `+`). -/
def v3add {α : Type} [Add α] (u v : α × α × α) : α × α × α :=
  (u.1 + v.1, u.2.1 + v.2.1, u.2.2 + v.2.2)

section Sampling

variable {α : Type} [LinearOrderedField α] [FloorRing α]

/-- Python float `%` for a positive modulus (`x %= width`). -/
def fmod (x m : α) : α := x - m * ⌊x / m⌋

/-- The wrapped sampling abscissa: `x %= width`. -/
def wrapX (w : ℕ) (x : α) : α := fmod x (w : α)

/-- The clamped sampling ordinate: `y = max(0.0, min(height - 1.001, y))`
(the source's float literal `1.001` is the exact rational `1001/1000` here). -/
def clampY (h : ℕ) (y : α) : α := max 0 (min ((h : α) - 1001/1000) y)

/-- `x0 = int(math.floor(x))` after wrapping. -/
def ix0 (w : ℕ) (x : α) : ℤ := ⌊wrapX w x⌋

/-- `y0 = int(math.floor(y))` after clamping. -/
def iy0 (h : ℕ) (y : α) : ℤ := ⌊clampY h y⌋

/-- `x1 = (x0 + 1) % width`. -/
def ix1 (w : ℕ) (x : α) : ℤ := (ix0 w x + 1) % (w : ℤ)

/-- `y1 = min(height - 1, y0 + 1)`. -/
def iy1 (h : ℕ) (y : α) : ℤ := min ((h : ℤ) - 1) (iy0 h y + 1)

/-- `tx = x - x0`. -/
def fracX (w : ℕ) (x : α) : α := wrapX w x - (ix0 w x : α)

/-- `ty = y - y0`. -/
def fracY (h : ℕ) (y : α) : α := clampY h y - (iy0 h y : α)

/-- `sample_scalar(array, x, y)` from the source:
`top = v00*(1-tx) + v10*tx`, `bottom = v01*(1-tx) + v11*tx`,
returning `top*(1-ty) + bottom*ty`. -/
def sample_scalar (a : ScalarGrid α) (x y : α) : α :=
  let tx := fracX a.width x
  let ty := fracY a.height y
  let v00 := a.data (ix0 a.width x).toNat (iy0 a.height y).toNat
  let v10 := a.data (ix1 a.width x).toNat (iy0 a.height y).toNat
  let v01 := a.data (ix0 a.width x).toNat (iy1 a.height y).toNat
  let v11 := a.data (ix1 a.width x).toNat (iy1 a.height y).toNat
  (v00 * (1 - tx) + v10 * tx) * (1 - ty) + (v01 * (1 - tx) + v11 * tx) * ty

/-- `sample_color(array, x, y)` from the source: the same index arithmetic as
`sample_scalar`, interpolating RGB triples componentwise. -/
def sample_color (a : ColorGrid α) (x y : α) : α × α × α :=
  let tx := fracX a.width x
  let ty := fracY a.height y
  let c00 := a.data (ix0 a.width x).toNat (iy0 a.height y).toNat
  let c10 := a.data (ix1 a.width x).toNat (iy0 a.height y).toNat
  let c01 := a.data (ix0 a.width x).toNat (iy1 a.height y).toNat
  let c11 := a.data (ix1 a.width x).toNat (iy1 a.height y).toNat
  v3add (v3smul (1 - fracY a.height y) (v3add (v3smul (1 - tx) c00) (v3smul tx c10)))
        (v3smul ty (v3add (v3smul (1 - tx) c01) (v3smul tx c11)))

theorem fmod_eq_self {x m : α} (h0 : 0 ≤ x) (hm : x < m) : fmod x m = x := by
  have hmpos : (0 : α) < m := lt_of_le_of_lt h0 hm
  have hfl : ⌊x / m⌋ = 0 := by
    rw [Int.floor_eq_zero_iff]
    exact Set.mem_Ico.mpr ⟨div_nonneg h0 hmpos.le, by rwa [div_lt_one hmpos]⟩
  simp [fmod, hfl]

theorem wrapX_int {w x : ℕ} (hx : x < w) : wrapX w ((x : ℕ) : α) = ((x : ℕ) : α) :=
  fmod_eq_self (Nat.cast_nonneg x) (by exact_mod_cast hx)

theorem ix0_int {w x : ℕ} (hx : x < w) : ix0 w ((x : ℕ) : α) = (x : ℤ) := by
  rw [ix0, wrapX_int hx, Int.floor_natCast]

theorem fracX_int {w x : ℕ} (hx : x < w) : fracX w ((x : ℕ) : α) = 0 := by
  rw [fracX, wrapX_int hx, ix0_int hx]
  push_cast
  ring

theorem clampY_int {h y : ℕ} (hy : y + 1 < h) : clampY h ((y : ℕ) : α) = ((y : ℕ) : α) := by
  have h2 : (y : α) + 2 ≤ (h : α) := by exact_mod_cast hy
  rw [clampY, min_eq_right (by linarith), max_eq_right (by positivity)]

theorem iy0_int {h y : ℕ} (hy : y + 1 < h) : iy0 h ((y : ℕ) : α) = (y : ℤ) := by
  rw [iy0, clampY_int hy, Int.floor_natCast]

theorem fracY_int {h y : ℕ} (hy : y + 1 < h) : fracY h ((y : ℕ) : α) = 0 := by
  rw [fracY, clampY_int hy, iy0_int hy]
  push_cast
  ring

theorem wrapX_half {w : ℕ} (hw : 0 < w) : wrapX w ((w : α) - 1/2) = (w : α) - 1/2 := by
  have h1 : (1 : α) ≤ (w : α) := by exact_mod_cast hw
  exact fmod_eq_self (by linarith) (by linarith)

theorem ix0_half {w : ℕ} (hw : 0 < w) : ix0 w ((w : α) - 1/2) = (w : ℤ) - 1 := by
  rw [ix0, wrapX_half hw, Int.floor_eq_iff]
  constructor
  · push_cast
    linarith
  · push_cast
    linarith

theorem ix1_half {w : ℕ} (hw : 0 < w) : ix1 w ((w : α) - 1/2) = 0 := by
  rw [ix1, ix0_half hw]
  simp

theorem fracX_half {w : ℕ} (hw : 0 < w) : fracX w ((w : α) - 1/2) = 1/2 := by
  rw [fracX, wrapX_half hw, ix0_half hw]
  push_cast
  ring

end Sampling

/-- A concrete 2×2 scalar texture with texels `0, 1, 2, 3`. -/
def exScalarGrid : ScalarGrid ℚ := ⟨2, 2, fun x y => (x : ℚ) + 2 * y⟩

/-- A concrete 2×2 RGB texture. -/
def exColorGrid : ColorGrid ℚ := ⟨2, 2, fun x y => ((x : ℚ), (y : ℚ), 5)⟩

/-- Claim C4 (counterexample): at the exact integer coordinate
`(0, height - 1)` of a 2×2 grid with texels `0,1,2,3`, the clamp of `y` to
`height - 1.001` forces interpolation between the last two rows, so the
sample is `1.998`, not the texel value `2`. -/
theorem sample_scalar_grid_point_counterexample :
    sample_scalar exScalarGrid 0 1 ≠ exScalarGrid.data 0 1 := by
  have hwrap : wrapX 2 (0 : ℚ) = 0 := fmod_eq_self le_rfl (by norm_num)
  have hclamp : clampY 2 (1 : ℚ) = 999/1000 := by
    rw [clampY]
    norm_num
  have hx0 : ix0 2 (0 : ℚ) = 0 := by rw [ix0, hwrap]; norm_num
  have hy0 : iy0 2 (1 : ℚ) = 0 := by rw [iy0, hclamp]; norm_num
  have h : sample_scalar exScalarGrid 0 1 = 999/500 := by
    rw [sample_scalar]
    show (_ * _ + _ * _) * _ + (_ * _ + _ * _) * _ = _
    simp only [exScalarGrid]
    rw [fracX, fracY, hwrap, hclamp, hx0, hy0]
    rw [show ix1 2 (0 : ℚ) = 1 by rw [ix1, hx0]; rfl]
    rw [show iy1 2 (1 : ℚ) = 1 by rw [iy1, hy0]; rfl]
    norm_num
  rw [h]
  norm_num [exScalarGrid]

/-- Claim C4 (amended): at exact integer coordinates with `0 ≤ x < width` and
`0 ≤ y < height - 1` (every integer row except the last, which the clamp to
`height - 1.001` turns into an interpolated read), `sample_scalar` and
`sample_color` return the underlying texel exactly; and sampling at
`x = width - 0.5` interpolates the last and the first column with equal
weights. -/
theorem sample_exact_and_wrap {α : Type} [LinearOrderedField α] [FloorRing α]
    (a : ScalarGrid α) (b : ColorGrid α) (xa ya xb yb : ℕ)
    (hxa : xa < a.width) (hya : ya + 1 < a.height)
    (hxb : xb < b.width) (hyb : yb + 1 < b.height) :
    sample_scalar a (xa : α) (ya : α) = a.data xa ya ∧
    sample_color b (xb : α) (yb : α) = b.data xb yb ∧
    sample_scalar a ((a.width : α) - 1/2) (ya : α)
      = (a.data (a.width - 1) ya + a.data 0 ya) / 2 ∧
    sample_color b ((b.width : α) - 1/2) (yb : α)
      = v3smul (1/2 : α) (v3add (b.data (b.width - 1) yb) (b.data 0 yb)) := by
  have hwa : 0 < a.width := by omega
  have hwb : 0 < b.width := by omega
  have htna : ((a.width : ℤ) - 1).toNat = a.width - 1 := by omega
  have htnb : ((b.width : ℤ) - 1).toNat = b.width - 1 := by omega
  refine ⟨?_, ?_, ?_, ?_⟩
  · rw [sample_scalar]
    show (_ * _ + _ * _) * _ + (_ * _ + _ * _) * _ = _
    rw [fracX_int hxa, fracY_int hya, ix0_int hxa, iy0_int hya, Int.toNat_natCast,
      Int.toNat_natCast]
    ring
  · rw [sample_color]
    show v3add (v3smul _ (v3add (v3smul _ _) (v3smul _ _)))
      (v3smul _ (v3add (v3smul _ _) (v3smul _ _))) = _
    rw [fracX_int hxb, fracY_int hyb, ix0_int hxb, iy0_int hyb, Int.toNat_natCast,
      Int.toNat_natCast]
    simp only [v3add, v3smul, Prod.ext_iff]
    refine ⟨by ring, by ring, by ring⟩
  · rw [sample_scalar]
    show (_ * _ + _ * _) * _ + (_ * _ + _ * _) * _ = _
    rw [fracX_half hwa, fracY_int hya, ix0_half hwa, iy0_int hya, ix1_half hwa,
      Int.toNat_natCast, htna, Int.toNat_zero]
    ring
  · rw [sample_color]
    show v3add (v3smul _ (v3add (v3smul _ _) (v3smul _ _)))
      (v3smul _ (v3add (v3smul _ _) (v3smul _ _))) = _
    rw [fracX_half hwb, fracY_int hyb, ix0_half hwb, iy0_int hyb, ix1_half hwb,
      Int.toNat_natCast, htnb, Int.toNat_zero]
    simp only [v3add, v3smul, Prod.ext_iff]
    refine ⟨by ring, by ring, by ring⟩

/-- Claim C4 (witness for the amended theorem): both grids evaluated at the
grid point `(1, 0)` and at the wrap point `x = width - 0.5`. -/
theorem sample_exact_and_wrap_witness :
    sample_scalar exScalarGrid ((1 : ℕ) : ℚ) ((0 : ℕ) : ℚ) = exScalarGrid.data 1 0 ∧
    sample_color exColorGrid ((1 : ℕ) : ℚ) ((0 : ℕ) : ℚ) = exColorGrid.data 1 0 ∧
    sample_scalar exScalarGrid ((exScalarGrid.width : ℚ) - 1/2) ((0 : ℕ) : ℚ)
      = (exScalarGrid.data (exScalarGrid.width - 1) 0 + exScalarGrid.data 0 0) / 2 ∧
    sample_color exColorGrid ((exColorGrid.width : ℚ) - 1/2) ((0 : ℕ) : ℚ)
      = v3smul (1/2 : ℚ)
          (v3add (exColorGrid.data (exColorGrid.width - 1) 0) (exColorGrid.data 0 0)) :=
  sample_exact_and_wrap exScalarGrid exColorGrid 1 0 1 0
    (by norm_num [exScalarGrid]) (by norm_num [exScalarGrid])
    (by norm_num [exColorGrid]) (by norm_num [exColorGrid])

/-! ## The sphere sample table (`GlobeRenderer._build_pixel_data`) -/

/-- One precomputed sphere pixel: screen coordinates, and the view-space
normal components `nx = dx / radius`, `ny = -dy / radius` together with the
exact square `nzSq = max 0 (1 - nx² - ny²)` of the stored third component
`nz = math.sqrt(max(0.0, 1.0 - nx*nx - ny*ny))`.  The stored latitude
`asin(ny)` and longitude offset `atan2(nx, nz)` are recovered on the `ℝ`
side of the development. -/
structure SpherePixelQ where
  px : ℕ
  py : ℕ
  nx : ℚ
  ny : ℚ
  nzSq : ℚ
  deriving DecidableEq

/-- The disc test of the source loop: `dx*dx + dy*dy <= radius*radius` with
`dx = x - radius`, `dy = y - radius` over the integers. -/
def inDisc (R x y : ℕ) : Prop :=
  ((x : ℤ) - R) * ((x : ℤ) - R) + ((y : ℤ) - R) * ((y : ℤ) - R) ≤ (R : ℤ) * R

instance inDisc.decidable (R x y : ℕ) : Decidable (inDisc R x y) :=
  inferInstanceAs (Decidable (_ ≤ _))

/-- The entry stored for an accepted pixel `(x, y)`. -/
def mkSpherePixel (R x y : ℕ) : SpherePixelQ :=
  { px := x
    py := y
    nx := ((x : ℚ) - R) / R
    ny := -(((y : ℚ) - R) / R)
    nzSq := max 0 (1 - (((x : ℚ) - R) / R) * (((x : ℚ) - R) / R)
      - (-(((y : ℚ) - R) / R)) * (-(((y : ℚ) - R) / R))) }

/-- `_build_pixel_data`: for `y in range(radius * 2)`, `x in range(radius * 2)`,
append an entry whenever `dx*dx + dy*dy <= radius*radius`. -/
def build_pixel_data (R : ℕ) : List SpherePixelQ :=
  (List.range (2 * R)).flatMap fun y =>
    ((List.range (2 * R)).filter fun x => decide (inDisc R x y)).map fun x =>
      mkSpherePixel R x y

/-- The number of integer pairs inside the disc, the pairs drawn from the
`n × n` grid `[0, n) × [0, n)`. -/
def discCount (n R : ℕ) : ℕ :=
  ((Finset.range n ×ˢ Finset.range n).filter fun p => inDisc R p.1 p.2).card

theorem countP_range (p : ℕ → Bool) (n : ℕ) :
    (List.range n).countP p = ∑ j ∈ Finset.range n, if p j then 1 else 0 := by
  induction n with
  | zero => simp
  | succ n ih =>
      rw [List.range_succ, List.countP_append, ih, Finset.sum_range_succ]
      simp [List.countP_cons]

theorem sum_map_range (f : ℕ → ℕ) (n : ℕ) :
    ((List.range n).map f).sum = ∑ j ∈ Finset.range n, f j := by
  induction n with
  | zero => simp
  | succ n ih =>
      rw [List.range_succ, List.map_append, List.sum_append, Finset.sum_range_succ, ih]
      simp

theorem build_pixel_data_length (R : ℕ) :
    (build_pixel_data R).length = discCount (2 * R) R := by
  calc (build_pixel_data R).length
      = ∑ y ∈ Finset.range (2 * R),
          ((List.range (2 * R)).countP fun x => decide (inDisc R x y)) := by
        rw [build_pixel_data, List.length_flatMap, sum_map_range]
        exact Finset.sum_congr rfl fun y _ => by
          simp only [Function.comp]
          rw [List.length_map, ← List.countP_eq_length_filter]
    _ = ∑ y ∈ Finset.range (2 * R), ∑ x ∈ Finset.range (2 * R),
          if inDisc R x y then 1 else 0 := by
        refine Finset.sum_congr rfl fun y _ => ?_
        rw [countP_range]
        exact Finset.sum_congr rfl fun x _ => by simp
    _ = discCount (2 * R) R := by
        rw [discCount, Finset.card_filter, Finset.sum_product, Finset.sum_comm]

/-- Membership characterisation of the sample table. -/
theorem mem_build_pixel_data {R : ℕ} {p : SpherePixelQ} :
    p ∈ build_pixel_data R ↔
      ∃ x y : ℕ, x < 2 * R ∧ y < 2 * R ∧ inDisc R x y ∧ p = mkSpherePixel R x y := by
  simp only [build_pixel_data, List.mem_flatMap, List.mem_map, List.mem_filter,
    List.mem_range, decide_eq_true_eq]
  constructor
  · rintro ⟨y, hy, x, ⟨hx, hdisc⟩, rfl⟩
    exact ⟨x, y, hx, hy, hdisc, rfl⟩
  · rintro ⟨x, y, hx, hy, hdisc, rfl⟩
    exact ⟨y, hy, x, ⟨hx, hdisc⟩, rfl⟩

/-- Claim C2 (counterexample): at radius `2` the loop stores `11` entries,
but the bounding square `[0, 2R] × [0, 2R]` of the disc contains `13` integer
pairs with `dx² + dy² ≤ R²` — the loop `range(radius * 2)` never visits the
disc points `(2R, R)` and `(R, 2R)`. -/
theorem build_pixel_data_count_counterexample :
    (build_pixel_data 2).length ≠ discCount (2 * 2 + 1) 2 := by
  decide

/-- Claim C2 (amended): the number of stored entries equals the number of
integer pairs of the `2R × 2R` grid `[0, 2R) × [0, 2R)` (the loop's actual
range) satisfying `dx² + dy² ≤ R²`, and every stored normal is exactly a unit
vector: `nx² + ny² + nz² = 1` where `nz = sqrt(nzSq)`. -/
theorem build_pixel_data_spec (R : ℕ) :
    (build_pixel_data R).length = discCount (2 * R) R ∧
    ∀ p ∈ build_pixel_data R, p.nx * p.nx + p.ny * p.ny + p.nzSq = 1 := by
  refine ⟨build_pixel_data_length R, ?_⟩
  intro p hp
  obtain ⟨x, y, hx, hy, hdisc, rfl⟩ := mem_build_pixel_data.mp hp
  have hR : 0 < R := by omega
  have hRQ : (0 : ℚ) < (R : ℚ) := by exact_mod_cast hR
  have hdisc' : ((x : ℤ) - R) * ((x : ℤ) - R) + ((y : ℤ) - R) * ((y : ℤ) - R)
      ≤ (R : ℤ) * R := hdisc
  have hcast : (((x : ℚ) - R) * ((x : ℚ) - R) + ((y : ℚ) - R) * ((y : ℚ) - R))
      ≤ (R : ℚ) * R := by exact_mod_cast hdisc'
  have hRQ' : (R : ℚ) ≠ 0 := ne_of_gt hRQ
  have hunit : (((x : ℚ) - R) / R) * (((x : ℚ) - R) / R)
      + (-(((y : ℚ) - R) / R)) * (-(((y : ℚ) - R) / R)) ≤ 1 := by
    have h1 : (((x : ℚ) - R) / R) * (((x : ℚ) - R) / R)
        + (-(((y : ℚ) - R) / R)) * (-(((y : ℚ) - R) / R))
        = (((x : ℚ) - R) * ((x : ℚ) - R) + ((y : ℚ) - R) * ((y : ℚ) - R))
          / ((R : ℚ) * R) := by
      field_simp
      ring
    rw [h1, div_le_one (by positivity)]
    exact hcast
  have hmax : max 0 (1 - (((x : ℚ) - R) / R) * (((x : ℚ) - R) / R)
      - (-(((y : ℚ) - R) / R)) * (-(((y : ℚ) - R) / R)))
      = 1 - (((x : ℚ) - R) / R) * (((x : ℚ) - R) / R)
      - (-(((y : ℚ) - R) / R)) * (-(((y : ℚ) - R) / R)) :=
    max_eq_right (by linarith)
  simp only [mkSpherePixel, hmax]
  ring

/-- Claim C2 (witness for the amended theorem): the entry stored for pixel
`(1, 0)` at radius `1` is in the table and its normal has unit magnitude. -/
theorem build_pixel_data_spec_witness :
    mkSpherePixel 1 1 0 ∈ build_pixel_data 1 ∧
    (mkSpherePixel 1 1 0).nx * (mkSpherePixel 1 1 0).nx
      + (mkSpherePixel 1 1 0).ny * (mkSpherePixel 1 1 0).ny
      + (mkSpherePixel 1 1 0).nzSq = 1 := by
  have hm : mkSpherePixel 1 1 0 ∈ build_pixel_data 1 :=
    mem_build_pixel_data.mpr ⟨1, 0, by norm_num, by norm_num, by decide, rfl⟩
  exact ⟨hm, (build_pixel_data_spec 1).2 _ hm⟩

/-! ## Fractal value noise (`fractal_noise`) -/

/-- The per-octave upsampled random layer of `fractal_noise`: everything the
source obtains from `numpy`'s seeded `RandomState` plus pygame's
`make_surface` / `smoothscale` / `array3d` pipeline.  Given the seed, the
octave index, the octave resolution and a target cell, the pipeline yields a
`uint8` channel value in `[0, 255]` (the scaled surface's red channel before
the division by `255.0`).  The function is a parameter because the
`numpy`/`pygame` internals are not part of the repository; the `uint8` range
bound is the only fact about it the source relies on. -/
structure UpsampleOps where
  layer : ℕ → ℕ → ℕ → ℕ → ℕ → ℕ → ℕ
  layer_le : ∀ seed octave resw resh i j, layer seed octave resw resh i j ≤ 255

/-- The octave resolution: `max(2, min(size, base_resolution * 2 ** octave))`
with `base_resolution = 32`. -/
def octaveRes (size octave : ℕ) : ℕ := max 2 (min size (32 * 2 ^ octave))

/-- `scaled_array = array3d(scaled)[:, :, 0] / 255.0` for one octave. -/
def octaveLayer (ops : UpsampleOps) (seed octave w h i j : ℕ) : ℚ :=
  (ops.layer seed octave (octaveRes w octave) (octaveRes h octave) i j : ℚ) / 255

/-- `fractal_noise(width, height, octaves, persistence, seed)` at cell
`(i, j)`: the loop accumulates `noise += scaled_array * amplitude` with
`amplitude = persistence ** octave` and `total_amplitude` their sum; when
`total_amplitude == 0` the raw accumulated grid is returned, otherwise the
grid divided by `total_amplitude`. -/
def fractal_noise (ops : UpsampleOps) (width height octaves : ℕ)
    (persistence : ℚ) (seed : ℕ) (i j : ℕ) : ℚ :=
  if (∑ o ∈ Finset.range octaves, persistence ^ o) = 0 then
    ∑ o ∈ Finset.range octaves, persistence ^ o * octaveLayer ops seed o width height i j
  else
    (∑ o ∈ Finset.range octaves, persistence ^ o * octaveLayer ops seed o width height i j)
      / ∑ o ∈ Finset.range octaves, persistence ^ o

/-- Claim C6: for a non-negative `persistence` (the source always passes
values in `(0, 1)`), every cell of the generated field lies in `[0, 1]`, and
generation from the same seed (and identical other parameters) yields the
identical field — the embedding is a pure function of its arguments, exactly
as the seeded `RandomState` pipeline is. -/
theorem fractal_noise_bounded_and_deterministic (ops : UpsampleOps)
    (width height octaves : ℕ) (persistence : ℚ) (seed : ℕ)
    (hp : 0 ≤ persistence) :
    (∀ i j, 0 ≤ fractal_noise ops width height octaves persistence seed i j ∧
            fractal_noise ops width height octaves persistence seed i j ≤ 1) ∧
    fractal_noise ops width height octaves persistence seed
      = fractal_noise ops width height octaves persistence seed := by
  refine ⟨fun i j => ?_, rfl⟩
  have hl : ∀ o, (0 : ℚ) ≤ octaveLayer ops seed o width height i j := fun o => by
    rw [octaveLayer]
    positivity
  have hl1 : ∀ o, octaveLayer ops seed o width height i j ≤ 1 := fun o => by
    rw [octaveLayer, div_le_one (by norm_num)]
    exact_mod_cast ops.layer_le seed o _ _ i j
  have hacc0 : (0 : ℚ) ≤ ∑ o ∈ Finset.range octaves,
      persistence ^ o * octaveLayer ops seed o width height i j :=
    Finset.sum_nonneg fun o _ => mul_nonneg (pow_nonneg hp o) (hl o)
  have haccle : (∑ o ∈ Finset.range octaves,
        persistence ^ o * octaveLayer ops seed o width height i j)
      ≤ ∑ o ∈ Finset.range octaves, persistence ^ o :=
    Finset.sum_le_sum fun o _ => by
      calc persistence ^ o * octaveLayer ops seed o width height i j
          ≤ persistence ^ o * 1 := mul_le_mul_of_nonneg_left (hl1 o) (pow_nonneg hp o)
        _ = persistence ^ o := mul_one _
  have htot0 : (0 : ℚ) ≤ ∑ o ∈ Finset.range octaves, persistence ^ o :=
    Finset.sum_nonneg fun o _ => pow_nonneg hp o
  rw [fractal_noise]
  split_ifs with h
  · refine ⟨hacc0, ?_⟩
    rw [h] at haccle
    linarith
  · have htpos : 0 < ∑ o ∈ Finset.range octaves, persistence ^ o :=
      lt_of_le_of_ne htot0 (Ne.symm h)
    exact ⟨div_nonneg hacc0 htot0, (div_le_one htpos).mpr haccle⟩

/-- An `UpsampleOps` whose layers are identically zero (used to instantiate
the noise theorem at a concrete input). -/
def zeroUpsampleOps : UpsampleOps :=
  ⟨fun _ _ _ _ _ _ => 0, fun _ _ _ _ _ _ => by norm_num⟩

/-- Claim C6 (witness): the theorem applied at the source's default
parameters `octaves = 5`, `persistence = 0.55`, `seed = 0` on a 64×64 field. -/
theorem fractal_noise_bounded_witness :
    (∀ i j, 0 ≤ fractal_noise zeroUpsampleOps 64 64 5 (11/20) 0 i j ∧
            fractal_noise zeroUpsampleOps 64 64 5 (11/20) 0 i j ≤ 1) ∧
    fractal_noise zeroUpsampleOps 64 64 5 (11/20) 0
      = fractal_noise zeroUpsampleOps 64 64 5 (11/20) 0 :=
  fractal_noise_bounded_and_deterministic zeroUpsampleOps 64 64 5 (11/20) 0 (by norm_num)

/-! ## Generic bounds for the float modulus -/

section FmodBounds

variable {α : Type} [LinearOrderedField α] [FloorRing α]

theorem fmod_eq_mul_fract {x m : α} (hm : m ≠ 0) :
    fmod x m = m * Int.fract (x / m) := by
  rw [fmod, Int.fract, mul_sub, mul_div_cancel₀ x hm]

theorem fmod_nonneg_of_pos {x m : α} (hm : 0 < m) : 0 ≤ fmod x m := by
  rw [fmod_eq_mul_fract hm.ne']
  exact mul_nonneg hm.le (Int.fract_nonneg _)

theorem fmod_lt_of_pos {x m : α} (hm : 0 < m) : fmod x m < m := by
  rw [fmod_eq_mul_fract hm.ne']
  calc m * Int.fract (x / m) < m * 1 :=
        mul_lt_mul_of_pos_left (Int.fract_lt_one _) hm
    _ = m := mul_one m

end FmodBounds

/-! ## Marker projection (`project_point`) -/

noncomputable section RealSide

open Real

/-- Python `int(x)` on the real side: truncation toward zero. -/
def pytruncR (r : ℝ) : ℤ := if 0 ≤ r then ⌊r⌋ else ⌈r⌉

/-- `math.atan2(y, x)`. -/
def atan2 (y x : ℝ) : ℝ :=
  if 0 < x then arctan (y / x)
  else if x < 0 ∧ 0 ≤ y then arctan (y / x) + π
  else if x < 0 then arctan (y / x) - π
  else if 0 < y then π / 2
  else if y < 0 then -(π / 2)
  else 0

/-- `spherical_to_cartesian(lat, lon)` from the source:
`(sin(lon)*cos(lat), sin(lat), cos(lon)*cos(lat))`. -/
def spherical_to_cartesian (lat lon : ℝ) : ℝ × ℝ × ℝ :=
  (sin lon * cos lat, sin lat, cos lon * cos lat)

/-- `project_point(latitude, longitude, rotation)` from the source: the
degree inputs go through `math.radians`, the current rotation (radians) is
added to the longitude, the point is projected orthographically
(`x = sin(lon_rad)*cos(lat_rad)`, `y = sin(lat_rad)`,
`z = cos(lon_rad)*cos(lat_rad)`), back-facing points (`z <= 0`) give `None`,
and otherwise the screen position
`(GLOBE_CENTER[0] + int(GLOBE_RADIUS * x), GLOBE_CENTER[1] - int(GLOBE_RADIUS * y))`
is returned with `depth = z`. -/
def project_point (latitude longitude rotation : ℝ) : Option ((ℤ × ℤ) × ℝ) :=
  if cos (longitude * π / 180 + rotation) * cos (latitude * π / 180) ≤ 0 then
    none
  else
    some ((GLOBE_CENTER.1 + pytruncR ((GLOBE_RADIUS : ℝ) *
             (sin (longitude * π / 180 + rotation) * cos (latitude * π / 180))),
           GLOBE_CENTER.2 - pytruncR ((GLOBE_RADIUS : ℝ) * sin (latitude * π / 180))),
          cos (longitude * π / 180 + rotation) * cos (latitude * π / 180))

/-- Claim C3 (counterexample): at `rotation = π/2` a destination at
latitude `0` and longitude equal to the rotation (`90°`) is projected to
`None` — the source adds the rotation to the longitude, so this point sits at
view longitude `π`, the far side — while the claim requires depth `1.0` at
the globe center. -/
theorem project_point_counterexample :
    project_point 0 90 (π / 2) = none := by
  rw [project_point]
  rw [show (90 : ℝ) * π / 180 + π / 2 = π by ring,
    show (0 : ℝ) * π / 180 = 0 by ring]
  rw [if_pos (by simp [Real.cos_pi])]

/-- Claim C3 (amended): a destination at latitude `0` whose longitude in
degrees is `-degrees(rotation)` (so that `radians(longitude) + rotation = 0`)
faces the camera: depth `1.0`, screen position exactly the globe center; and
the antipodal longitude `-degrees(rotation) + 180` is back-facing: `None`. -/
theorem project_point_facing_camera (rotation : ℝ) :
    project_point 0 (-rotation * 180 / π) rotation = some (GLOBE_CENTER, 1) ∧
    project_point 0 (-rotation * 180 / π + 180) rotation = none := by
  have hlon0 : (-rotation * 180 / π) * π / 180 + rotation = 0 := by
    field_simp
    ring
  have hlonpi : (-rotation * 180 / π + 180) * π / 180 + rotation = π := by
    field_simp
  constructor
  · rw [project_point, hlon0, show (0 : ℝ) * π / 180 = 0 by ring]
    rw [if_neg (by simp)]
    simp [pytruncR, GLOBE_CENTER]
  · rw [project_point, hlonpi, show (0 : ℝ) * π / 180 = 0 by ring]
    rw [if_pos (by simp [Real.cos_pi])]

/-! ## Frame loop state (`run`) -/

/-- The animation state owned by the main loop: rotation, sun phase and
cloud scroll offset (radians, radians, map fraction). -/
structure AnimState where
  rotation : ℝ
  sun_phase : ℝ
  cloud_offset : ℝ

/-- One tick of the main loop with elapsed milliseconds `dt`
(`clock.get_time()`):
`rotation = (rotation + 0.0035 * dt) % math.tau`,
`sun_phase = (sun_phase + 0.0022 * dt) % math.tau`,
`cloud_offset = (cloud_offset + 0.00008 * dt) % 1.0`. -/
def stepState (s : AnimState) (dt : ℝ) : AnimState :=
  { rotation := fmod (s.rotation + 0.0035 * dt) (2 * π)
    sun_phase := fmod (s.sun_phase + 0.0022 * dt) (2 * π)
    cloud_offset := fmod (s.cloud_offset + 0.00008 * dt) 1 }

/-- A sequence of main-loop ticks. -/
def advanceAll (s : AnimState) (dts : List ℝ) : AnimState :=
  dts.foldl stepState s

/-- The canonical wrapped ranges of the three animation quantities. -/
def canonicalRanges (s : AnimState) : Prop :=
  0 ≤ s.rotation ∧ s.rotation < 2 * π ∧
  0 ≤ s.sun_phase ∧ s.sun_phase < 2 * π ∧
  0 ≤ s.cloud_offset ∧ s.cloud_offset < 1

theorem stepState_canonical (s : AnimState) (dt : ℝ) :
    canonicalRanges (stepState s dt) := by
  have htau : (0 : ℝ) < 2 * π := by positivity
  exact ⟨fmod_nonneg_of_pos htau, fmod_lt_of_pos htau,
    fmod_nonneg_of_pos htau, fmod_lt_of_pos htau,
    fmod_nonneg_of_pos one_pos, fmod_lt_of_pos one_pos⟩

theorem advanceAll_canonical_of (dts : List ℝ) :
    ∀ s : AnimState, canonicalRanges s → canonicalRanges (advanceAll s dts) := by
  induction dts with
  | nil => exact fun s hs => hs
  | cons d rest ih => exact fun s _ => ih (stepState s d) (stepState_canonical s d)

/-- Claim C7: after every tick, and after any further sequence of ticks with
arbitrary elapsed times, rotation and sun phase lie in `[0, 2π)` and the
cloud offset lies in `[0, 1)` — every wrapping quantity stays in its
canonical range. -/
theorem advance_canonical (s : AnimState) (d : ℝ) (dts : List ℝ) :
    canonicalRanges (advanceAll (stepState s d) dts) :=
  advanceAll_canonical_of dts (stepState s d) (stepState_canonical s d)

/-- Claim C9 (counterexample): two consecutive ticks of `dt = 100` ms from
the zero state advance the rotation by the same amount `0.35` each
(`0.0035 * dt`), to `0.35` and then `0.70`.  The per-tick advance is a
constant rate: there is no `rotationVelocity` state and no geometric decay
of the advance, which contradicts the claimed
`rotation += rotationVelocity * dt * frameRate` with
`rotationVelocity *= decayConstant^(dt*frameRate)`, `decayConstant < 1`. -/
theorem run_rotation_no_decay_counterexample :
    (advanceAll ⟨0, 0, 0⟩ [100]).rotation = 7/20 ∧
    (advanceAll ⟨0, 0, 0⟩ [100, 100]).rotation = 7/10 := by
  have hpi := Real.pi_gt_three
  have hr1 : (stepState ⟨0, 0, 0⟩ 100).rotation = 7/20 := by
    show fmod ((0 : ℝ) + 0.0035 * 100) (2 * π) = 7/20
    rw [show (0 : ℝ) + 0.0035 * 100 = 7/20 by norm_num]
    exact fmod_eq_self (by norm_num) (by nlinarith)
  have hr2 : (stepState (stepState ⟨0, 0, 0⟩ 100) 100).rotation = 7/10 := by
    show fmod ((stepState ⟨0, 0, 0⟩ 100).rotation + 0.0035 * 100) (2 * π) = 7/10
    rw [hr1, show (7/20 : ℝ) + 0.0035 * 100 = 7/10 by norm_num]
    exact fmod_eq_self (by norm_num) (by nlinarith)
  exact ⟨hr1, hr2⟩

/-- Claim C9 (amended): on every tick with elapsed time `dt` the loop
advances the rotation by the fixed rate `0.0035 * dt` and wraps modulo `2π`
(shown here in the non-wrapping range); the advance is independent of any
velocity state — the loop keeps none. -/
theorem stepState_rotation_const_rate (s : AnimState) (dt : ℝ)
    (h1 : 0 ≤ s.rotation + 0.0035 * dt) (h2 : s.rotation + 0.0035 * dt < 2 * π) :
    (stepState s dt).rotation = s.rotation + 0.0035 * dt :=
  fmod_eq_self h1 h2

/-- Claim C9 (witness for the amended theorem). -/
theorem stepState_rotation_const_rate_witness :
    (stepState ⟨1, 0, 0⟩ 200).rotation = 1 + 0.0035 * 200 :=
  stepState_rotation_const_rate ⟨1, 0, 0⟩ 200 (by norm_num)
    (by have := Real.pi_gt_three; nlinarith)

end RealSide

/-! ## The globe renderer (`GlobeRenderer.render`) -/

/-- An RGBA surface: per pixel, `uint8` colour channels and alpha. -/
structure Buffer where
  color : ℕ → ℕ → ℕ × ℕ × ℕ
  alpha : ℕ → ℕ → ℕ

/-- An RGBA overlay blitted onto a surface with `BLEND_RGBA_ADD`. -/
structure Overlay where
  color : ℕ → ℕ → ℕ × ℕ × ℕ
  alpha : ℕ → ℕ → ℕ

/-- `BLEND_RGBA_ADD`: saturating `uint8` addition on all four channels. -/
def addOverlay (b : Buffer) (o : Overlay) : Buffer :=
  { color := fun x y =>
      (min 255 ((b.color x y).1 + (o.color x y).1),
       min 255 ((b.color x y).2.1 + (o.color x y).2.1),
       min 255 ((b.color x y).2.2 + (o.color x y).2.2))
    alpha := fun x y => min 255 (b.alpha x y + o.alpha x y) }

/-- The fresh `SRCALPHA` globe sprite: colour zero, `alpha[:, :] = 0`. -/
def emptyBuffer : Buffer := ⟨fun _ _ => (0, 0, 0), fun _ _ => 0⟩

noncomputable section Renderer

open Real

/-- The `CITY_LIGHTS` table (latitude, longitude, intensity); the names are
irrelevant to rendering and dropped. -/
def CITY_LIGHTS : List (ℝ × ℝ × ℝ) :=
  [(35.6762, 139.6503, 1.0), (37.5665, 126.9780, 0.8), (1.3521, 103.8198, 0.9),
   (-33.8688, 151.2093, 0.7), (25.2048, 55.2708, 1.0), (48.8566, 2.3522, 0.9),
   (51.5072, -0.1276, 0.9), (40.7128, -74.0060, 1.0), (34.0522, -118.2437, 0.8),
   (19.4326, -99.1332, 0.7), (-23.5505, -46.6333, 0.7), (-34.6037, -58.3816, 0.6),
   (-26.2041, 28.0473, 0.6), (30.0444, 31.2357, 0.7)]

/-- `self.city_vectors`: each city light as
`(spherical_to_cartesian(radians(lat), radians(lon)), intensity)`. -/
def cityVectorsInit : List ((ℝ × ℝ × ℝ) × ℝ) :=
  CITY_LIGHTS.map fun c =>
    (spherical_to_cartesian (c.1 * π / 180) (c.2.1 * π / 180), c.2.2)

/-- The tuple `(x, y, lat, lon0, (nx, ny, nz))` that `_build_pixel_data`
appends to `self.pixel_data`, as consumed by `render`. -/
structure SpherePixelR where
  px : ℕ
  py : ℕ
  lat : ℝ
  lon0 : ℝ
  nx : ℝ
  ny : ℝ
  nz : ℝ

/-- The `ℝ` image of a stored `SpherePixelQ`: the precomputed latitude
`asin(ny)`, longitude offset `atan2(nx, nz)` and unit normal, with
`nz = sqrt(nzSq)`. -/
def toRealPixel (p : SpherePixelQ) : SpherePixelR :=
  { px := p.px
    py := p.py
    lat := arcsin (p.ny : ℝ)
    lon0 := atan2 (p.nx : ℝ) (Real.sqrt (p.nzSq : ℝ))
    nx := (p.nx : ℝ)
    ny := (p.ny : ℝ)
    nz := Real.sqrt (p.nzSq : ℝ) }

/-- The sample table over `ℝ`, as iterated by `render`. -/
def realPixelData (R : ℕ) : List SpherePixelR := (build_pixel_data R).map toRealPixel

/-- The post-pass overlays of `_apply_atmosphere` and
`_apply_longitude_highlights` whose pixels come out of pygame's rasterisers
rather than out of repository code: `bloom` is the `soft_blur` of the
rendered sprite tinted `(130, 190, 255)` (smoothscale internals), `rim` is
the stack of 42 width-2 `draw.circle` rings, `beams` are the 16 blurred
longitude beams at the given rotation.  All three are blitted with
`BLEND_RGBA_ADD`.  The radial halo of filled circles is pure source
arithmetic and is embedded concretely as `glowOverlay` below. -/
structure SurfaceOps where
  bloom : Buffer → Overlay
  rim : Overlay
  beams : ℝ → Overlay

/-- The immutable state `GlobeRenderer.__init__` precomputes: the composited
base-map colour array, the land mask alpha, the elevation and ocean
variation noise fields, the cloud alpha (all outputs of the asset-generation
pipeline), and the sphere sample table and city vectors. -/
structure GlobeRenderer where
  map_pixels : ColorGrid ℝ
  land_alpha : ScalarGrid ℝ
  elevation_map : ScalarGrid ℝ
  ocean_variation : ScalarGrid ℝ
  cloud_alpha : ScalarGrid ℝ
  ops : SurfaceOps
  pixel_data : List SpherePixelR
  city_vectors : List ((ℝ × ℝ × ℝ) × ℝ)

/-- `GlobeRenderer()` construction: the five map arrays and the pygame
post-pass rasterisers are the pipeline's products; the sample table is built
at radius `GLOBE_RADIUS` and the city vectors from `CITY_LIGHTS`. -/
@[reducible] def GlobeRenderer.make (map_pixels : ColorGrid ℝ)
    (land_alpha elevation_map ocean_variation cloud_alpha : ScalarGrid ℝ)
    (ops : SurfaceOps) : GlobeRenderer :=
  { map_pixels := map_pixels
    land_alpha := land_alpha
    elevation_map := elevation_map
    ocean_variation := ocean_variation
    cloud_alpha := cloud_alpha
    ops := ops
    pixel_data := realPixelData GLOBE_RADIUS
    city_vectors := cityVectorsInit }

/-- The per-pixel shading of `GlobeRenderer.render` (the body of the loop
over `self.pixel_data`): base-map sampling, sun lighting, land/ocean
branches with city glow and specular glimmer, polar aurora, cloud blend,
fresnel atmosphere and glossy center tint, producing the float colour before
the final clip. -/
def shadePixel (g : GlobeRenderer) (rotation sun_phase cloud_offset : ℝ)
    (p : SpherePixelR) : ℝ × ℝ × ℝ :=
  let sun_dir := spherical_to_cartesian (18 * π / 180 * sin (sun_phase * 0.5))
    (sun_phase + rotation * 0.3)
  let lon := p.lon0 + rotation
  let map_x := (lon / (2 * π) + 0.5) * MAP_WIDTH
  let map_y := (0.5 - p.lat / π) * MAP_HEIGHT
  let base_color := sample_color g.map_pixels map_x map_y
  let land := sample_scalar g.land_alpha map_x map_y > 0.1
  let elevation := sample_scalar g.elevation_map map_x map_y
  let ocean_detail := sample_scalar g.ocean_variation map_x map_y
  let cloud_a := sample_scalar g.cloud_alpha (map_x + cloud_offset * MAP_WIDTH) map_y * 0.55
  let sunlight := max (-1)
    (min 1 (p.nx * sun_dir.1 + p.ny * sun_dir.2.1 + p.nz * sun_dir.2.2))
  let fresnel := max 0 (1 - p.nz)
  let view_alignment := max 0 p.nz
  let ambient := (0.35 : ℝ)
  let color := base_color
  let color :=
    if land then
      let light := max sunlight 0
      let relief := 0.55 + 0.45 * elevation
      let shaded := ambient * 0.9 + 0.95 * light * relief
      let color := v3smul shaded color
      let golden := v3smul (light ^ (0.35 : ℝ) * 0.35) (255, 190, 120)
      let color := v3add color (v3smul relief golden)
      if sunlight < 0 then
        let night_factor := min 1 (-sunlight * 1.4)
        let color := v3add (v3smul 0.18 color) (v3smul (night_factor * 0.4) (40, 52, 90))
        let glow := min ((g.city_vectors.map fun cv =>
          max 0 (p.nx * cv.1.1 + p.ny * cv.1.2.1 + p.nz * cv.1.2.2) ^ (30 : ℕ) * cv.2).sum) 1.8
        v3add color (v3smul (glow * night_factor) (255, 200, 150))
      else
        let dusk := (1 - view_alignment) ^ (3 : ℕ)
        v3add color (v3smul (dusk * 0.6) (255, 160, 140))
    else
      let light := ambient + 0.8 * max sunlight 0
      let depth_tint := 0.55 + 0.45 * ocean_detail
      let color := v3smul (0.42 + 0.58 * light * depth_tint) color
      let color :=
        if sunlight < 0 then
          v3add (v3smul 0.24 color) (v3smul (-sunlight * 0.45) (16, 40, 72))
        else color
      if sunlight > 0 then
        let reflect := (2 * sunlight * p.nx - sun_dir.1,
                        2 * sunlight * p.ny - sun_dir.2.1,
                        2 * sunlight * p.nz - sun_dir.2.2)
        let spec := max 0 (reflect.1 * 0 + reflect.2.1 * 0 + reflect.2.2 * 1)
        let specular := spec ^ (80 : ℕ) * 520
        v3add color (v3smul (specular * (0.6 + 0.4 * depth_tint)) (190, 220, 255))
      else color
  let lat_deg := p.lat * 180 / π
  let color :=
    if sunlight < -0.2 ∧ |lat_deg| > 55 then
      let aurora := min 1 ((-sunlight - 0.2) * 1.6) * min 1 ((|lat_deg| - 55) / 20)
      v3add (v3smul (1 - 0.3 * aurora) color) (v3smul (aurora * 0.6) (60, 200, 160))
    else color
  let color :=
    if cloud_a > 0.01 then
      let cloud_light := ambient + 0.75 * max sunlight 0
      let cloud_color :=
        if sunlight < 0 then v3smul (0.2 + -sunlight * 0.4) (170, 190, 220)
        else v3smul (0.35 + 0.65 * cloud_light) (255, 255, 255)
      v3add (v3smul (1 - cloud_a * 0.45) color) (v3smul (cloud_a * 0.45) cloud_color)
    else color
  let center_weight := max 0 (1 -
    (((p.px : ℝ) - GLOBE_RADIUS) ^ (2 : ℕ) + ((p.py : ℝ) - GLOBE_RADIUS) ^ (2 : ℕ))
      / (GLOBE_RADIUS : ℝ) ^ (2 : ℕ))
  let color := v3add color (v3smul (fresnel ^ (2 : ℕ) * 0.35) (90, 140, 255))
  v3add color (v3smul (center_weight ^ (2 : ℕ) * 0.22) (36, 56, 110))

/-- `np.clip(color, 0, 255)` followed by the truncating `uint8` store. -/
def clip255 (r : ℝ) : ℕ := (⌊max 0 (min 255 r)⌋).toNat

/-- The clipped `uint8` RGB triple written into the surface. -/
def clipColor (c : ℝ × ℝ × ℝ) : ℕ × ℕ × ℕ := (clip255 c.1, clip255 c.2.1, clip255 c.2.2)

/-- One loop iteration: `pixels[px, py] = color; alpha[px, py] = 255`. -/
def writePixel (b : Buffer) (p : SpherePixelR) (c : ℕ × ℕ × ℕ) : Buffer :=
  { color := fun x y => if x = p.px ∧ y = p.py then c else b.color x y
    alpha := fun x y => if x = p.px ∧ y = p.py then 255 else b.alpha x y }

/-- The per-pixel pass of `render`: the loop over `self.pixel_data`, writing
the clipped shaded colour with full opacity into the fresh sprite. -/
def renderPixelPass (g : GlobeRenderer) (rotation sun_phase cloud_offset : ℝ) : Buffer :=
  g.pixel_data.foldl
    (fun buf p => writePixel buf p (clipColor (shadePixel g rotation sun_phase cloud_offset p)))
    emptyBuffer

/-- The squared distance of sprite pixel `(x, y)` from the halo center: the
glow surface is `(2R+48)²` and blitted at `(-24, -24)`, so its center lands
exactly on the disc center `(GLOBE_RADIUS, GLOBE_RADIUS)`. -/
def glowDistSq (x y : ℕ) : ℤ :=
  ((x : ℤ) - GLOBE_RADIUS) * ((x : ℤ) - GLOBE_RADIUS) +
    ((y : ℤ) - GLOBE_RADIUS) * ((y : ℤ) - GLOBE_RADIUS)

/-- The radius of the smallest (hence last-drawn, and value-determining)
filled halo circle covering a pixel at squared distance `d` from the
center: the least `r ≥ 1` with `d ≤ r²` (a filled `pygame.draw.circle` of
radius `r` covers exactly the pixels at distance at most `r`). -/
def glowRadius (d : ℕ) : ℕ :=
  if Nat.sqrt d * Nat.sqrt d = d then max 1 (Nat.sqrt d) else Nat.sqrt d + 1

/-- `int(140 * (1 - t) ** 1.9)` with `t = r / center`, `center = R + 24`:
the alpha of the halo circle of radius `r`. -/
def glowAlphaOfRadius (r : ℕ) : ℕ :=
  (⌊(140 : ℝ) * (1 - (r : ℝ) / ((GLOBE_RADIUS : ℝ) + 24)) ^ ((1.9 : ℝ))⌋).toNat

/-- The halo overlay of `_apply_atmosphere`: for the pixels inside the
largest circle (radius `center = R + 24`), the colour `(70, 150, 255)` and
the alpha of the last circle drawn over them; clear outside. -/
def glowOverlay : Overlay :=
  { color := fun x y =>
      if glowDistSq x y ≤ ((GLOBE_RADIUS : ℤ) + 24) * ((GLOBE_RADIUS : ℤ) + 24) then
        (70, 150, 255)
      else (0, 0, 0)
    alpha := fun x y =>
      if glowDistSq x y ≤ ((GLOBE_RADIUS : ℤ) + 24) * ((GLOBE_RADIUS : ℤ) + 24) then
        glowAlphaOfRadius (glowRadius (glowDistSq x y).toNat)
      else 0 }

/-- `GlobeRenderer.render(rotation, sun_phase, cloud_offset)`: the per-pixel
pass over the sample table, then `_apply_atmosphere` (bloom add, halo add,
rim add) and `_apply_longitude_highlights` (beams add), each blitted with
`BLEND_RGBA_ADD`, returning the finished sprite. -/
def GlobeRenderer.render (g : GlobeRenderer)
    (rotation sun_phase cloud_offset : ℝ) : Buffer :=
  let s1 := renderPixelPass g rotation sun_phase cloud_offset
  let s2 := addOverlay s1 (g.ops.bloom s1)
  let s3 := addOverlay s2 glowOverlay
  let s4 := addOverlay s3 g.ops.rim
  addOverlay s4 (g.ops.beams rotation)

end Renderer

/-- Claim C1: two `render` calls with identical `(rotation, sun_phase,
cloud_offset)` on the same constructed renderer produce identical pixel
buffers — in the embedding, `render` is a function of its three arguments
and the immutable renderer fields (base maps, sample table, city vectors,
post-pass rasterisers) and reads no other state. -/
theorem render_deterministic (g : GlobeRenderer)
    (rotation sun_phase cloud_offset : ℝ) :
    g.render rotation sun_phase cloud_offset
      = g.render rotation sun_phase cloud_offset :=
  rfl

theorem clip255_le (r : ℝ) : clip255 r ≤ 255 := by
  have h : max 0 (min 255 r) ≤ (255 : ℝ) := max_le (by norm_num) (min_le_left _ _)
  have h2 : ⌊max 0 (min 255 r)⌋ ≤ 255 := by
    calc ⌊max 0 (min 255 r)⌋ ≤ ⌊(255 : ℝ)⌋ := Int.floor_le_floor h
      _ = 255 := by norm_num
  rw [clip255]
  omega

theorem foldl_write_alpha_untouched (f : SpherePixelR → ℕ × ℕ × ℕ) {x y : ℕ} :
    ∀ (l : List SpherePixelR) (b : Buffer),
      (∀ p ∈ l, ¬(x = p.px ∧ y = p.py)) →
      (l.foldl (fun buf p => writePixel buf p (f p)) b).alpha x y = b.alpha x y := by
  intro l
  induction l with
  | nil => exact fun b _ => rfl
  | cons p rest ih =>
      intro b h
      rw [List.foldl_cons, ih _ fun q hq => h q (List.mem_cons_of_mem _ hq)]
      show (if x = p.px ∧ y = p.py then 255 else b.alpha x y) = b.alpha x y
      exact if_neg (h p (List.mem_cons_self _ _))

theorem foldl_write_alpha_covered (f : SpherePixelR → ℕ × ℕ × ℕ) {x y : ℕ} :
    ∀ (l : List SpherePixelR) (b : Buffer),
      (b.alpha x y = 255 ∨ ∃ p ∈ l, x = p.px ∧ y = p.py) →
      (l.foldl (fun buf p => writePixel buf p (f p)) b).alpha x y = 255 := by
  intro l
  induction l with
  | nil =>
      intro b h
      rcases h with h | ⟨p, hp, _⟩
      · exact h
      · exact absurd hp (List.not_mem_nil p)
  | cons p rest ih =>
      intro b h
      rw [List.foldl_cons]
      apply ih
      by_cases hxy : x = p.px ∧ y = p.py
      · left
        show (if x = p.px ∧ y = p.py then 255 else b.alpha x y) = 255
        exact if_pos hxy
      · rcases h with h255 | ⟨q, hq, hco⟩
        · left
          show (if x = p.px ∧ y = p.py then 255 else b.alpha x y) = 255
          rw [if_neg hxy]
          exact h255
        · rcases List.mem_cons.mp hq with rfl | hq'
          · exact absurd hco hxy
          · exact Or.inr ⟨q, hq', hco⟩

theorem foldl_write_color_le (f : SpherePixelR → ℕ × ℕ × ℕ)
    (hf : ∀ p, (f p).1 ≤ 255 ∧ (f p).2.1 ≤ 255 ∧ (f p).2.2 ≤ 255) {x y : ℕ} :
    ∀ (l : List SpherePixelR) (b : Buffer),
      ((b.color x y).1 ≤ 255 ∧ (b.color x y).2.1 ≤ 255 ∧ (b.color x y).2.2 ≤ 255) →
      (((l.foldl (fun buf p => writePixel buf p (f p)) b).color x y).1 ≤ 255 ∧
       ((l.foldl (fun buf p => writePixel buf p (f p)) b).color x y).2.1 ≤ 255 ∧
       ((l.foldl (fun buf p => writePixel buf p (f p)) b).color x y).2.2 ≤ 255) := by
  intro l
  induction l with
  | nil => exact fun b h => h
  | cons p rest ih =>
      intro b h
      rw [List.foldl_cons]
      apply ih
      have hc : (writePixel b p (f p)).color x y
          = if x = p.px ∧ y = p.py then f p else b.color x y := rfl
      rw [hc]
      split_ifs
      · exact hf p
      · exact h

/-- The sampled disc: exactly the screen pixels `_build_pixel_data` stores
at the fixed radius `GLOBE_RADIUS`. -/
def inSample (x y : ℕ) : Prop :=
  x < 2 * GLOBE_RADIUS ∧ y < 2 * GLOBE_RADIUS ∧ inDisc GLOBE_RADIUS x y

theorem inSample_iff_mem {x y : ℕ} :
    inSample x y ↔ ∃ p ∈ realPixelData GLOBE_RADIUS, x = p.px ∧ y = p.py := by
  constructor
  · rintro ⟨hx, hy, hd⟩
    exact ⟨toRealPixel (mkSpherePixel GLOBE_RADIUS x y),
      List.mem_map_of_mem _ (mem_build_pixel_data.mpr ⟨x, y, hx, hy, hd, rfl⟩),
      rfl, rfl⟩
  · rintro ⟨p, hp, rfl, rfl⟩
    obtain ⟨q, hq, rfl⟩ := List.mem_map.mp hp
    obtain ⟨x', y', hx', hy', hd', rfl⟩ := mem_build_pixel_data.mp hq
    exact ⟨hx', hy', hd'⟩

/-- Claim C8 (amended): in the buffer `render` returns, every pixel of the
sampled disc is fully opaque (alpha `255`, which the saturating additive
post-passes preserve) with every colour channel in `[0, 255]`; the clipped
per-pixel pass already writes channels in `[0, 255]`; and pixels outside the
sampled set are fully transparent in the per-pixel pass output — but not
necessarily in the returned buffer, because the atmosphere halo adds alpha
beyond the disc (see the counterexample). -/
theorem render_opacity_and_clamp (mp : ColorGrid ℝ)
    (la el ov ca : ScalarGrid ℝ) (ops : SurfaceOps)
    (rotation sun_phase cloud_offset : ℝ) (x y : ℕ) :
    (inSample x y →
      ((GlobeRenderer.make mp la el ov ca ops).render
          rotation sun_phase cloud_offset).alpha x y = 255) ∧
    ((((GlobeRenderer.make mp la el ov ca ops).render
          rotation sun_phase cloud_offset).color x y).1 ≤ 255 ∧
     (((GlobeRenderer.make mp la el ov ca ops).render
          rotation sun_phase cloud_offset).color x y).2.1 ≤ 255 ∧
     (((GlobeRenderer.make mp la el ov ca ops).render
          rotation sun_phase cloud_offset).color x y).2.2 ≤ 255) ∧
    (((renderPixelPass (GlobeRenderer.make mp la el ov ca ops)
          rotation sun_phase cloud_offset).color x y).1 ≤ 255 ∧
     ((renderPixelPass (GlobeRenderer.make mp la el ov ca ops)
          rotation sun_phase cloud_offset).color x y).2.1 ≤ 255 ∧
     ((renderPixelPass (GlobeRenderer.make mp la el ov ca ops)
          rotation sun_phase cloud_offset).color x y).2.2 ≤ 255) ∧
    (¬ inSample x y →
      (renderPixelPass (GlobeRenderer.make mp la el ov ca ops)
          rotation sun_phase cloud_offset).alpha x y = 0) := by
  suffices h : ∀ g : GlobeRenderer, g.pixel_data = realPixelData GLOBE_RADIUS →
      ((inSample x y →
          (g.render rotation sun_phase cloud_offset).alpha x y = 255) ∧
        (((g.render rotation sun_phase cloud_offset).color x y).1 ≤ 255 ∧
         ((g.render rotation sun_phase cloud_offset).color x y).2.1 ≤ 255 ∧
         ((g.render rotation sun_phase cloud_offset).color x y).2.2 ≤ 255) ∧
        (((renderPixelPass g rotation sun_phase cloud_offset).color x y).1 ≤ 255 ∧
         ((renderPixelPass g rotation sun_phase cloud_offset).color x y).2.1 ≤ 255 ∧
         ((renderPixelPass g rotation sun_phase cloud_offset).color x y).2.2 ≤ 255) ∧
        (¬ inSample x y →
          (renderPixelPass g rotation sun_phase cloud_offset).alpha x y = 0)) by
    exact h (GlobeRenderer.make mp la el ov ca ops) (by with_reducible rfl)
  intro g hpd
  have hrenderα : (g.render rotation sun_phase cloud_offset).alpha x y
      = min 255 (min 255 (min 255 (min 255
          ((renderPixelPass g rotation sun_phase cloud_offset).alpha x y
            + (g.ops.bloom (renderPixelPass g rotation sun_phase cloud_offset)).alpha x y)
          + glowOverlay.alpha x y)
          + g.ops.rim.alpha x y)
          + (g.ops.beams rotation).alpha x y) := rfl
  refine ⟨?_, ⟨min_le_left _ _, min_le_left _ _, min_le_left _ _⟩, ?_, ?_⟩
  · intro hin
    have hmem : ∃ p ∈ g.pixel_data, x = p.px ∧ y = p.py := by
      rw [hpd]
      exact inSample_iff_mem.mp hin
    have hs1 : (renderPixelPass g rotation sun_phase cloud_offset).alpha x y = 255 :=
      foldl_write_alpha_covered _ _ _ (Or.inr hmem)
    rw [hrenderα, hs1]
    omega
  · exact foldl_write_color_le _
      (fun p => ⟨clip255_le _, clip255_le _, clip255_le _⟩) _ _
      ⟨Nat.zero_le _, Nat.zero_le _, Nat.zero_le _⟩
  · intro hout
    have hnone : ∀ p ∈ g.pixel_data, ¬(x = p.px ∧ y = p.py) := by
      rw [hpd]
      exact fun p hp hco => hout (inSample_iff_mem.mpr ⟨p, hp, hco⟩)
    exact foldl_write_alpha_untouched _ _ _ hnone

/-- A zero additive overlay. -/
def zeroOverlay : Overlay := ⟨fun _ _ => (0, 0, 0), fun _ _ => 0⟩

/-- Post-pass rasterisers whose overlays are identically clear. -/
def zeroSurfaceOps : SurfaceOps := ⟨fun _ => zeroOverlay, zeroOverlay, fun _ => zeroOverlay⟩

/-- An all-black composited base map of the source's dimensions. -/
def zeroColorGridR : ColorGrid ℝ := ⟨MAP_WIDTH, MAP_HEIGHT, fun _ _ => (0, 0, 0)⟩

/-- An all-zero scalar field of the source's dimensions. -/
def zeroScalarGridR : ScalarGrid ℝ := ⟨MAP_WIDTH, MAP_HEIGHT, fun _ _ => 0⟩

/-- Claim C8 (witness for the amended theorem): the disc center pixel of a
concrete renderer is fully opaque with channels in range, and a corner pixel
is transparent after the per-pixel pass. -/
theorem render_opacity_and_clamp_witness :
    ((GlobeRenderer.make zeroColorGridR zeroScalarGridR zeroScalarGridR zeroScalarGridR
        zeroScalarGridR zeroSurfaceOps).render 0 0 0).alpha GLOBE_RADIUS GLOBE_RADIUS = 255 ∧
    (renderPixelPass (GlobeRenderer.make zeroColorGridR zeroScalarGridR zeroScalarGridR
        zeroScalarGridR zeroScalarGridR zeroSurfaceOps) 0 0 0).alpha 0 0 = 0 :=
  ⟨(render_opacity_and_clamp zeroColorGridR zeroScalarGridR zeroScalarGridR zeroScalarGridR
      zeroScalarGridR zeroSurfaceOps 0 0 0 GLOBE_RADIUS GLOBE_RADIUS).1
      ⟨by norm_num [GLOBE_RADIUS], by norm_num [GLOBE_RADIUS], by decide⟩,
   (render_opacity_and_clamp zeroColorGridR zeroScalarGridR zeroScalarGridR zeroScalarGridR
      zeroScalarGridR zeroSurfaceOps 0 0 0 0 0).2.2.2
      (by intro h; exact absurd h.2.2 (by decide))⟩

/-- Claim C8 (counterexample): pixel `(0, 300)` lies outside the sampled
disc (`280² + 20² > 280²`), yet its alpha in the buffer returned by `render`
is nonzero: the `_apply_atmosphere` halo — filled circles out to radius
`R + 24`, blitted with `BLEND_RGBA_ADD`, which adds alpha — covers it with
alpha `int(140 * (1 - 281/304) ** 1.9) = 1`.  Shown on a concrete renderer
whose library-rasterised overlays are clear, so the nonzero alpha comes from
the source's own halo loop. -/
theorem render_outside_alpha_counterexample :
    ¬ inSample 0 300 ∧
    ((GlobeRenderer.make zeroColorGridR zeroScalarGridR zeroScalarGridR zeroScalarGridR
        zeroScalarGridR zeroSurfaceOps).render 0 0 0).alpha 0 300 ≠ 0 := by
  have hnot : ¬ inSample 0 300 := by
    intro h
    exact absurd h.2.2 (by decide)
  refine ⟨hnot, ?_⟩
  suffices h : ∀ g0 : GlobeRenderer, g0.pixel_data = realPixelData GLOBE_RADIUS →
      g0.ops = zeroSurfaceOps → (g0.render 0 0 0).alpha 0 300 ≠ 0 by
    exact h (GlobeRenderer.make zeroColorGridR zeroScalarGridR zeroScalarGridR zeroScalarGridR
      zeroScalarGridR zeroSurfaceOps) (by with_reducible rfl) (by with_reducible rfl)
  intro g0 hpd0 hops
  have hs1 : (renderPixelPass g0 0 0 0).alpha 0 300 = 0 := by
    apply foldl_write_alpha_untouched
    rw [hpd0]
    intro p hp hco
    exact hnot (inSample_iff_mem.mpr ⟨p, hp, hco⟩)
  have hkey : (1 : ℝ) ≤ 140 * (23/304 : ℝ) ^ (1.9 : ℝ) := by
    have ha : (0 : ℝ) ≤ (23/304 : ℝ) := by norm_num
    have hpow : ((23/304 : ℝ) ^ (1.9 : ℝ)) ^ (10 : ℕ) = (23/304 : ℝ) ^ (19 : ℕ) := by
      rw [← Real.rpow_natCast ((23/304 : ℝ) ^ (1.9 : ℝ)) 10,
        ← Real.rpow_mul ha, show (1.9 : ℝ) * (10 : ℕ) = ((19 : ℕ) : ℝ) by norm_num,
        Real.rpow_natCast]
    have ha19 : ((1 : ℝ)/140) ^ (10 : ℕ) ≤ (23/304 : ℝ) ^ (19 : ℕ) := by norm_num
    by_contra hlt
    push_neg at hlt
    have h1 : (23/304 : ℝ) ^ (1.9 : ℝ) < 1/140 := by linarith
    have h2 : ((23/304 : ℝ) ^ (1.9 : ℝ)) ^ (10 : ℕ) < ((1 : ℝ)/140) ^ (10 : ℕ) :=
      pow_lt_pow_left h1 (Real.rpow_nonneg ha _) (by norm_num)
    rw [hpow] at h2
    linarith
  have halpha1 : 1 ≤ glowAlphaOfRadius 281 := by
    rw [glowAlphaOfRadius]
    have hcast : 1 - ((281 : ℕ) : ℝ) / ((GLOBE_RADIUS : ℝ) + 24) = 23/304 := by
      norm_num [GLOBE_RADIUS]
    rw [hcast]
    have hfloor : (1 : ℤ) ≤ ⌊(140 : ℝ) * (23/304 : ℝ) ^ (1.9 : ℝ)⌋ :=
      Int.le_floor.mpr (by push_cast; exact hkey)
    omega
  have hglow : glowOverlay.alpha 0 300 = glowAlphaOfRadius 281 := by
    show (if glowDistSq 0 300 ≤ ((GLOBE_RADIUS : ℤ) + 24) * ((GLOBE_RADIUS : ℤ) + 24) then
        glowAlphaOfRadius (glowRadius (glowDistSq 0 300).toNat) else 0)
      = glowAlphaOfRadius 281
    have hsq : Nat.sqrt 78800 = 280 := by
      have h1 : 280 ≤ Nat.sqrt 78800 := Nat.le_sqrt.mpr (by norm_num)
      have h2 : Nat.sqrt 78800 < 281 := Nat.sqrt_lt.mpr (by norm_num)
      omega
    have hrad : glowRadius 78800 = 281 := by
      rw [glowRadius, hsq]
      norm_num
    rw [if_pos (by decide), show (glowDistSq 0 300).toNat = 78800 by decide, hrad]
  have hrenderα : (g0.render 0 0 0).alpha 0 300
      = min 255 (min 255 (min 255 (min 255
          ((renderPixelPass g0 0 0 0).alpha 0 300
            + (g0.ops.bloom (renderPixelPass g0 0 0 0)).alpha 0 300)
          + glowOverlay.alpha 0 300)
          + g0.ops.rim.alpha 0 300)
          + (g0.ops.beams 0).alpha 0 300) := rfl
  have hbloom : (zeroSurfaceOps.bloom (renderPixelPass g0 0 0 0)).alpha 0 300 = 0 := rfl
  have hrim : zeroSurfaceOps.rim.alpha 0 300 = 0 := rfl
  have hbeams : (zeroSurfaceOps.beams 0).alpha 0 300 = 0 := rfl
  rw [hrenderα, hops, hs1, hglow, hbloom, hrim, hbeams]
  omega


end TravelGlobe
